import Mathlib

/-!
# Verification of the army-portal exam core

Shallow embedding of the exam-administration core of the `army-portal`
repository: the Excel row parser and question importer
(`questions/services.py`), the paper-selection and exam-interface view
(`registration/views.py`), the session generator and the paper-deletion
cascade (`questions/models.py`, `questions/signals.py`,
`questions/admin.py`).  Django rows are lists in an explicit `DB` record;
machine floats (`marks`) are rationals; fallible operations return
`Except` or an explicit success flag.
-/

namespace ArmyPortal

/-! ## Spreadsheet cells (openpyxl values) -/

/-- A spreadsheet cell as handed to the row loop of
`load_questions_from_excel_data`: `None`, a string, or a number
(numeric Excel cells; modelled as integers). -/
inductive Cell
  | none
  | str (s : String)
  | num (n : Int)
deriving Repr, DecidableEq

/-- Python truthiness of a cell value (`None`, `""` and `0` are falsy). -/
def Cell.truthy : Cell → Bool
  | Cell.none => false
  | Cell.str s => !(s == "")
  | Cell.num n => !(n == 0)

/-- Python `str(...)` on a cell value. -/
def Cell.toStr : Cell → String
  | Cell.none => "None"
  | Cell.str s => s
  | Cell.num n => toString n

/-- Python `str(cell or default)`: the default replaces a falsy cell. -/
def cellOrDefault (c : Cell) (d : String) : String :=
  if c.truthy then c.toStr else d

/-! ## Python string primitives (modelled on lists of characters) -/

/-- Python whitespace (`str.strip` default set). -/
def pySpace (c : Char) : Bool :=
  c == ' ' || c == '\t' || c == '\n' || c == '\x0d' || c == '\x0b' || c == '\x0c'

/-- Python `str.strip()`. -/
def pyStrip (s : String) : String :=
  String.mk (((s.data.dropWhile pySpace).reverse.dropWhile pySpace).reverse)

/-- ASCII lower-casing of one character (the question texts and part
letters the importer handles are ASCII). -/
def asciiLower (c : Char) : Char :=
  if 65 ≤ c.toNat ∧ c.toNat ≤ 90 then Char.ofNat (c.toNat + 32) else c

/-- ASCII upper-casing of one character. -/
def asciiUpper (c : Char) : Char :=
  if 97 ≤ c.toNat ∧ c.toNat ≤ 122 then Char.ofNat (c.toNat - 32) else c

/-- Python `str.lower()` (ASCII fragment). -/
def pyLower (s : String) : String :=
  String.mk (s.data.map asciiLower)

/-- Python `str.upper()` (ASCII fragment). -/
def pyUpper (s : String) : String :=
  String.mk (s.data.map asciiUpper)

/-! ## `convert_to_float` (questions/services.py) -/

/-- Digits-only string to a number (`none` on empty or non-digit input). -/
def digitsToNat? (cs : List Char) : Option Nat :=
  if cs.isEmpty then Option.none
  else cs.foldl
    (fun acc c => acc.bind (fun n =>
      if c.isDigit then some (n * 10 + (c.toNat - 48)) else Option.none))
    (some 0)

/-- Python `float(s)` restricted to plain decimal literals
`[+-]?digits[.digits]` (the only shapes the marks column carries);
scientific notation and the like are out of the modelled domain. -/
def parseDecimalChars? (cs0 : List Char) : Option Rat :=
  let sc : Int × List Char :=
    match cs0 with
    | '-' :: r => (-1, r)
    | '+' :: r => (1, r)
    | _ => (1, cs0)
  let sgn := sc.1
  let cs := sc.2
  let ip := cs.takeWhile (fun c => !(c == '.'))
  let rest := cs.dropWhile (fun c => !(c == '.'))
  match rest with
  | [] => (digitsToNat? ip).map (fun n => ((sgn * n : Int) : Rat))
  | _ :: fp =>
      if fp.contains '.' then Option.none
      else if ip.isEmpty ∧ fp.isEmpty then Option.none
      else
        let ipv := if ip.isEmpty then some 0 else digitsToNat? ip
        let fpv := if fp.isEmpty then some 0 else digitsToNat? fp
        match ipv, fpv with
        | some n, some m =>
            some ((sgn : Rat) * ((n : Rat) + (m : Rat) / ((10 : Rat) ^ fp.length)))
        | _, _ => Option.none

/-- The word-number table of `convert_to_float`. -/
def wordToNum? : String → Option Rat
  | "zero" => some 0
  | "one" => some 1
  | "two" => some 2
  | "three" => some 3
  | "four" => some 4
  | "five" => some 5
  | "six" => some 6
  | "seven" => some 7
  | "eight" => some 8
  | "nine" => some 9
  | "ten" => some 10
  | "half" => some (1 / 2)
  | "quarter" => some (1 / 4)
  | _ => Option.none

/-- First match of the regex `\d+\.?\d*` in a string, as a number. -/
def extractNumber? : List Char → Option Rat
  | [] => Option.none
  | c :: rest =>
      if c.isDigit then
        let ds1 := (c :: rest).takeWhile Char.isDigit
        let tail := (c :: rest).dropWhile Char.isDigit
        match tail with
        | '.' :: rest2 =>
            let ds2 := rest2.takeWhile Char.isDigit
            parseDecimalChars? (ds1 ++ '.' :: ds2)
        | _ => parseDecimalChars? ds1
      else extractNumber? rest

/-- `convert_to_float` from `load_questions_from_excel_data`
(questions/services.py): `None` → 1.0; numbers pass through; strings are
stripped/lowercased, looked up in the word table, parsed as a float, or
scanned for the first numeral substring; everything else defaults to 1.0. -/
def convert_to_float (value : Cell) : Rat :=
  match value with
  | Cell.none => 1
  | Cell.num n => (n : Rat)
  | Cell.str s =>
      let vs := pyLower (pyStrip s)
      match wordToNum? vs with
      | some r => r
      | Option.none =>
          match parseDecimalChars? vs.data with
          | some r => r
          | Option.none => (extractNumber? vs.data).getD 1

/-! ## The Excel row loop (questions/services.py, `load_questions_from_excel_data`) -/

/-- One parsed question dict as produced by the row loop. -/
structure ParsedQuestion where
  text : String
  part : String
  marks : Rat
  options : Option (List String)
  correctAnswer : Option String
deriving Repr, DecidableEq

/-- `row[i]` with `None` for a short row (guards in the source always
check `len(row) > i` first, so the default is never observed). -/
def rowCell (row : List Cell) (i : Nat) : Cell :=
  row.getD i Cell.none

/-- The choice-collection test `len(row) > i and row[i] and
str(row[i]).strip()`, returning the stripped choice text when it passes. -/
def choiceCellStr? (row : List Cell) (i : Nat) : Option String :=
  if i < row.length ∧ (rowCell row i).truthy = true ∧ pyStrip (rowCell row i).toStr ≠ "" then
    some (pyStrip (rowCell row i).toStr)
  else Option.none

/-- The body of the per-row loop of `load_questions_from_excel_data`:
skips short rows and rows without question text, clamps `part` to `A..F`
(default `A`), converts `marks`, collects choices for parts `A`/`B`
(columns 2..5), synthesizes `TRUE`/`FALSE` for part `F` when columns 2..3
yield no choice — both option branches require `len(row) > 5` — and reads
the correct answer from column 6. -/
def load_questions_row (row : List Cell) : Option ParsedQuestion :=
  if row.length < 2 then Option.none
  else
    let part0 := pyUpper (pyStrip (cellOrDefault (rowCell row 0) "A"))
    let text := pyStrip (cellOrDefault (rowCell row 1) "")
    if text = "" then Option.none
    else
      let marks := convert_to_float (if row.length > 7 then rowCell row 7 else Cell.num 1)
      let part := if part0 ∈ ["A", "B", "C", "D", "E", "F"] then part0 else "A"
      let opts : Option (List String) :=
        if part = "A" ∨ part = "B" then
          if row.length > 5 then
            let choices := (List.range' 2 4).filterMap (choiceCellStr? row)
            if choices.isEmpty then Option.none else some choices
          else Option.none
        else if part = "F" ∧ row.length > 5 then
          let choices := (List.range' 2 2).filterMap (choiceCellStr? row)
          some (if choices.isEmpty then ["TRUE", "FALSE"] else choices)
        else Option.none
      let correct : Option String :=
        if row.length > 6 ∧ (rowCell row 6).truthy = true then
          let a := pyStrip (rowCell row 6).toStr
          if a = "" then Option.none else some a
        else Option.none
      some { text := text, part := part, marks := marks,
             options := opts, correctAnswer := correct }

/-! ## Data model (questions/models.py and collaborators) -/

/-- `questions.models.Question`. -/
structure Question where
  id : Nat
  text : String
  part : String
  marks : Rat
  options : Option (List String)
  correctAnswer : Option String
  trade : Option Nat
  category : Option String
  uploadRef : Option Nat
  isActive : Bool
deriving Repr, DecidableEq

/-- `questions.models.QuestionPaper` (ids are auto-increment primary keys,
so a larger id means a more recently created paper). -/
structure QuestionPaper where
  id : Nat
  category : Option String
  trade : Option Nat
  isActive : Bool
deriving Repr, DecidableEq

/-- `questions.models.PaperQuestion`, the through table linking papers and
questions; `unique_together = ("paper", "question")`. -/
structure PaperQuestion where
  paperId : Nat
  questionId : Nat
  order : Nat
deriving Repr, DecidableEq

/-- `questions.models.ExamSession`.  Its `Meta` declares only an ordering:
no uniqueness constraint on `(user, paper)` exists in the schema. -/
structure ExamSession where
  id : Nat
  paperId : Nat
  userId : Nat
  trade : Option Nat
  startedAt : Nat
  completedAt : Option Nat
  durationSecs : Option Nat
  totalQuestions : Nat
deriving Repr, DecidableEq

/-- `questions.models.ExamQuestion`, the per-session question snapshot;
`unique_together = ("session", "question")`. -/
structure ExamQuestion where
  sessionId : Nat
  questionId : Nat
  order : Nat
deriving Repr, DecidableEq

/-- Modelled from the spec: `results.models.CandidateAnswer` is not under
`src/`; per the spec's data model an `AnswerRecord` is
`{candidate-ref, paper-ref, question-ref, answerText}`, unique per
`(candidate, paper, question)`. -/
structure CandidateAnswer where
  candidateId : Nat
  paperId : Nat
  questionId : Nat
  answer : String
deriving Repr, DecidableEq

/-- Modelled from the spec: `exams.models.ExamAssignment` is not under
`src/`; the cascade signal filters it by `primary_paper`/`common_paper`
and deletes it before the paper "to avoid ProtectedError". -/
structure ExamAssignment where
  id : Nat
  primaryPaperId : Option Nat
  commonPaperId : Option Nat
deriving Repr, DecidableEq

/-- Modelled from the spec: `exams.models.ExamAttempt` is not under
`src/`; the cascade signal deletes attempts of the assignments being
removed. -/
structure ExamAttempt where
  id : Nat
  assignmentId : Nat
deriving Repr, DecidableEq

/-- Modelled from the spec: `exams.models.Answer` is not under `src/`;
the cascade signal deletes it by `question_id`. -/
structure ExamAnswer where
  id : Nat
  questionId : Nat
deriving Repr, DecidableEq

/-- The persistent store: one list per table. -/
structure DB where
  questions : List Question
  papers : List QuestionPaper
  paperQuestions : List PaperQuestion
  sessions : List ExamSession
  examQuestions : List ExamQuestion
  answers : List CandidateAnswer
  assignments : List ExamAssignment
  attempts : List ExamAttempt
  examAnswers : List ExamAnswer
deriving Repr, DecidableEq

/-- The uniqueness constraints the schema actually declares: primary keys,
`PaperQuestion (paper, question)` and `ExamQuestion (session, question)`,
plus the spec-modelled `CandidateAnswer (candidate, paper, question)` key.
`ExamSession` declares none beyond its primary key. -/
def schemaOk (db : DB) : Prop :=
  (db.questions.map Question.id).Nodup ∧
  (db.papers.map QuestionPaper.id).Nodup ∧
  (db.sessions.map ExamSession.id).Nodup ∧
  (db.paperQuestions.map (fun pq => (pq.paperId, pq.questionId))).Nodup ∧
  (db.examQuestions.map (fun eq1 => (eq1.sessionId, eq1.questionId))).Nodup ∧
  (db.answers.map (fun a => (a.candidateId, a.paperId, a.questionId))).Nodup

instance : DecidablePred schemaOk := fun db => by
  unfold schemaOk; infer_instance

/-! ## Question importer (questions/services.py, `import_questions_from_dicts`) -/

/-- One row dict handed to `import_questions_from_dicts`. -/
structure ImportRow where
  text : String
  part : String
  marks : Rat
  options : Option (List String)
  correctAnswer : Option String
deriving Repr, DecidableEq

/-- `Question.objects.filter(text__iexact=...).first()`: case-insensitive
text match against every stored question (active or not). -/
def iexactMatch (qs : List Question) (t : String) : Option Question :=
  qs.find? (fun q => pyLower q.text == pyLower t)

/-- The record `Question.objects.get_or_create` builds for a fresh row:
text from the row, tagged with the call's trade, category and upload,
active by default. -/
def mkImportQuestion (trade : Option Nat) (category : Option String)
    (uploadRef : Option Nat) (n : Nat) (r : ImportRow) : Question :=
  { id := n, text := r.text, part := r.part, marks := r.marks,
    options := r.options, correctAnswer := r.correctAnswer,
    trade := trade, category := category, uploadRef := uploadRef,
    isActive := true }

/-- One iteration of the import loop of `import_questions_from_dicts`:
skip when a case-insensitive text match exists (idempotence); otherwise
`get_or_create` by exact text, tagging trade, category and upload; a
created record is appended to the store and to the returned list.  The
accumulator carries the store, the created list and the next
auto-increment id. -/
def importStep (trade : Option Nat) (category : Option String) (uploadRef : Option Nat)
    (acc : DB × List Question × Nat) (r : ImportRow) : DB × List Question × Nat :=
  let s := acc.1
  match iexactMatch s.questions r.text with
  | some _ => acc
  | Option.none =>
      match s.questions.find? (fun q => q.text == r.text) with
      | some _ => acc
      | Option.none =>
          let q := mkImportQuestion trade category uploadRef acc.2.2 r
          ({ s with questions := s.questions ++ [q] },
           acc.2.1 ++ [q], acc.2.2 + 1)

/-- `import_questions_from_dicts` (questions/services.py): fold the
per-row step over the rows inside one `transaction.atomic`; return the
state together with the list of newly created records.  `nid` is the
next auto-increment id. -/
def import_questions_from_dicts (db : DB) (rows : List ImportRow)
    (trade : Option Nat) (category : Option String) (uploadRef : Option Nat)
    (nid : Nat) : DB × List Question :=
  let out := rows.foldl (importStep trade category uploadRef) (db, ([], nid))
  (out.1, out.2.1)

/-! ## Paper selection (registration/views.py, `exam_interface`) -/

/-- Whether the question with the given id is active
(`paperquestion__question__is_active=True`). -/
def questionActive (db : DB) (qid : Nat) : Bool :=
  db.questions.any (fun q => q.id == qid && q.isActive)

/-- The `num_qs` annotation: how many links of the paper point at an
active question. -/
def activeQCount (db : DB) (pid : Nat) : Nat :=
  (db.paperQuestions.filter (fun pq => pq.paperId == pid && questionActive db pq.questionId)).length

/-- `.order_by("-id").first()`: the paper with the greatest primary key
(primary keys are unique, and auto-increment order is creation order). -/
def firstByDescId (l : List QuestionPaper) : Option QuestionPaper :=
  l.foldl
    (fun acc p =>
      match acc with
      | Option.none => some p
      | some q => if q.id < p.id then some p else some q)
    Option.none

/-- The paper-selection logic of `exam_interface`
(registration/views.py): four priority blocks evaluated in order, each
one guarded by the presence of the candidate field it filters on and
restricted to active papers with `num_qs > 0`, ties resolved by
`order_by("-id")`. -/
def exam_interface_select (db : DB) (cat : Option String) (tr : Option Nat) :
    Option QuestionPaper :=
  let p1 :=
    match cat with
    | some c =>
        firstByDescId (db.papers.filter
          (fun p => decide (p.category = some c) && p.isActive
            && decide (0 < activeQCount db p.id)))
    | Option.none => Option.none
  match p1 with
  | some p => some p
  | Option.none =>
    let p2 :=
      match cat, tr with
      | some c, some t =>
          firstByDescId (db.papers.filter
            (fun p => decide (p.category = some c) && decide (p.trade = some t)
              && p.isActive && decide (0 < activeQCount db p.id)))
      | _, _ => Option.none
    match p2 with
    | some p => some p
    | Option.none =>
      let p3 :=
        match tr with
        | some t =>
            firstByDescId (db.papers.filter
              (fun p => decide (p.trade = some t) && p.isActive
                && decide (0 < activeQCount db p.id)))
        | Option.none => Option.none
      match p3 with
      | some p => some p
      | Option.none =>
          firstByDescId (db.papers.filter
            (fun p => p.isActive && decide (0 < activeQCount db p.id)))

/-- Spec-side tier ("each filter additionally requires the paper to be
active and to have at least one active linked question"); a category
match requires the candidate's category to be present and equal. -/
def specCatMatch (cat : Option String) (p : QuestionPaper) : Bool :=
  match cat with
  | some c => decide (p.category = some c)
  | Option.none => false

/-- Spec-side trade match: the candidate's (optional) trade is present
and equal to the paper's. -/
def specTradeMatch (tr : Option Nat) (p : QuestionPaper) : Bool :=
  match tr with
  | some t => decide (p.trade = some t)
  | Option.none => false

/-- Spec-side eligibility: active paper with at least one active linked
question. -/
def specEligible (db : DB) (p : QuestionPaper) : Bool :=
  p.isActive && decide (0 < activeQCount db p.id)

/-- Tier 1 of the spec's selector: category match. -/
def specTier1 (db : DB) (cat : Option String) : List QuestionPaper :=
  db.papers.filter (fun p => specCatMatch cat p && specEligible db p)

/-- Tier 2: category and trade match. -/
def specTier2 (db : DB) (cat : Option String) (tr : Option Nat) : List QuestionPaper :=
  db.papers.filter (fun p => specCatMatch cat p && specTradeMatch tr p && specEligible db p)

/-- Tier 3: trade match. -/
def specTier3 (db : DB) (tr : Option Nat) : List QuestionPaper :=
  db.papers.filter (fun p => specTradeMatch tr p && specEligible db p)

/-- Tier 4: any eligible paper. -/
def specTier4 (db : DB) : List QuestionPaper :=
  db.papers.filter (fun p => specEligible db p)

/-- The first non-empty tier, in the spec's order. -/
def specChosenTier (db : DB) (cat : Option String) (tr : Option Nat) : List QuestionPaper :=
  if specTier1 db cat ≠ [] then specTier1 db cat
  else if specTier2 db cat tr ≠ [] then specTier2 db cat tr
  else if specTier3 db tr ≠ [] then specTier3 db tr
  else specTier4 db

/-- The selector as the spec words it: most-recently-created paper of the
first non-empty tier, `NotFound` when every tier is empty. -/
def specSelect (db : DB) (cat : Option String) (tr : Option Nat) : Option QuestionPaper :=
  firstByDescId (specChosenTier db cat tr)

/-! ## Session generation (questions/models.py, `generate_for_candidate`) -/

/-- Stable insertion into a list sorted by link order. -/
def insertByOrder (pq : PaperQuestion) : List PaperQuestion → List PaperQuestion
  | [] => [pq]
  | a :: t => if pq.order ≤ a.order then pq :: a :: t else a :: insertByOrder pq t

/-- Stable sort by link order (`ORDER BY "order"`). -/
def sortByOrder (l : List PaperQuestion) : List PaperQuestion :=
  l.foldr insertByOrder []

/-- `self.paperquestion_set.filter(question__is_active=True)
.order_by('order')`: the paper's links to active questions, by link
order. -/
def paperActiveLinks (db : DB) (pid : Nat) : List PaperQuestion :=
  sortByOrder (db.paperQuestions.filter
    (fun pq => pq.paperId == pid && questionActive db pq.questionId))

/-- `generate_for_candidate` (questions/models.py): raise
`ValidationError` ("no active questions assigned") when the paper has no
active linked question; otherwise — in one `transaction.atomic` block —
create the session, persist one `ExamQuestion` per link with order
`index + 1` over the shuffled sequence, pre-create one empty
`CandidateAnswer` per question keyed `(candidate, paper, question)`, and
set `total_questions`.  `random.shuffle` is modelled by the caller-chosen
`shuffled` sequence (theorems hypothesize it permutes the links);
`candId` is the resolved `CandidateProfile`, `sid` the fresh session id. -/
def generate_for_candidate (db : DB) (pid : Nat) (candId userId : Nat)
    (trade : Option Nat) (paperTrade : Option Nat) (durationSecs : Option Nat)
    (now : Nat) (shuffled : List PaperQuestion) (sid : Nat) :
    Except Unit (DB × ExamSession) :=
  let pqs := paperActiveLinks db pid
  if pqs.isEmpty then Except.error ()
  else
    let effectiveTrade := match paperTrade with
      | some t => some t
      | Option.none => trade
    let eqs := shuffled.enum.map (fun ip =>
      { sessionId := sid, questionId := ip.2.questionId, order := ip.1 + 1 : ExamQuestion })
    let newAnswers := eqs.map (fun e =>
      { candidateId := candId, paperId := pid, questionId := e.questionId,
        answer := "" : CandidateAnswer })
    let sess : ExamSession :=
      { id := sid, paperId := pid, userId := userId, trade := effectiveTrade,
        startedAt := now, completedAt := Option.none, durationSecs := durationSecs,
        totalQuestions := eqs.length }
    Except.ok
      ({ db with sessions := db.sessions ++ [sess],
                 examQuestions := db.examQuestions ++ eqs,
                 answers := db.answers ++ newAnswers }, sess)

/-- `ExamSession.objects.filter(paper=paper, user=user)
.order_by("-started_at").first()` (registration/views.py). -/
def latestSession (db : DB) (pid userId : Nat) : Option ExamSession :=
  (db.sessions.filter (fun s => s.paperId == pid && s.userId == userId)).foldl
    (fun acc s =>
      match acc with
      | Option.none => some s
      | some t => if t.startedAt < s.startedAt then some s else some t)
    Option.none

/-- The resume-or-create step of `exam_interface`: return the existing
session for the pair unchanged, else generate a fresh one. -/
def getOrCreateSession (db : DB) (pid candId userId : Nat) (trade : Option Nat)
    (paperTrade : Option Nat) (durationSecs : Option Nat) (now : Nat)
    (shuffled : List PaperQuestion) (sid : Nat) :
    Except Unit (DB × ExamSession) :=
  match latestSession db pid userId with
  | some s => Except.ok (db, s)
  | Option.none =>
      generate_for_candidate db pid candId userId trade paperTrade durationSecs now shuffled sid

/-! ## Answer submission and finishing (registration/views.py, `exam_interface` POST) -/

/-- `CandidateAnswer.objects.update_or_create(candidate=..., paper=...,
question=..., defaults={"answer": value})`. -/
def upsertAnswer (db : DB) (cand pid qid : Nat) (val : String) : DB :=
  if db.answers.any (fun a =>
      a.candidateId == cand && a.paperId == pid && a.questionId == qid) then
    { db with answers := db.answers.map (fun a =>
        if a.candidateId == cand && a.paperId == pid && a.questionId == qid then
          { a with answer := val }
        else a) }
  else
    let na : CandidateAnswer :=
      { candidateId := cand, paperId := pid, questionId := qid, answer := val }
    { db with answers := db.answers ++ [na] }

/-- The POST loop of `exam_interface`: for each submitted
`question_<qid>` field, `Question.objects.get(id=qid, is_active=True)` —
a miss is logged and skipped; a hit upserts the stripped answer.  The
session's `ExamQuestion` snapshot is never consulted. -/
def processAnswerPost (db : DB) (cand pid : Nat) (post : List (Nat × String)) : DB :=
  post.foldl
    (fun s kv =>
      if s.questions.any (fun q => q.id == kv.1 && q.isActive) then
        upsertAnswer s cand pid kv.1 (pyStrip kv.2)
      else s)
    db

/-- `ExamSession.finish` (questions/models.py): set
`completed_at = timezone.now()` and save. -/
def finishSession (db : DB) (sid : Nat) (now : Nat) : DB :=
  { db with sessions := db.sessions.map (fun s =>
      if s.id == sid then { s with completedAt := some now } else s) }

/-- Outcome of a POST to `exam_interface`. -/
inductive PostResult
  | alreadySubmitted
  | success
deriving Repr, DecidableEq

/-- The POST handler of `exam_interface`: a session with `completed_at`
set is rejected up front ("already submitted", logout, redirect) with no
state change; otherwise the answers are upserted and the session is
finished inside one `transaction.atomic` block. -/
def exam_interface_post (db : DB) (sess : ExamSession) (cand : Nat)
    (post : List (Nat × String)) (now : Nat) : DB × PostResult :=
  if sess.completedAt.isSome then (db, PostResult.alreadySubmitted)
  else
    let db1 := processAnswerPost db cand sess.paperId post
    (finishSession db1 sess.id now, PostResult.success)

/-! ## Deletion cascade (questions/models.py `QuestionPaper.delete`,
questions/signals.py `delete_linked_questions`,
questions/admin.py `QuestionPaperAdmin.delete_model`) -/

/-- `PaperQuestion.objects.filter(paper=self).values_list("question_id",
flat=True).distinct()`. -/
def linkedQuestionIds (db : DB) (pid : Nat) : List Nat :=
  ((db.paperQuestions.filter (fun pq => pq.paperId == pid)).map
    PaperQuestion.questionId).dedup

/-- Deleting one `Question` row: Django cascades the `PaperQuestion` and
`ExamQuestion` rows pointing at it (both declare `on_delete=CASCADE`). -/
def deleteQuestionRow (db : DB) (qid : Nat) : DB :=
  { db with questions := db.questions.filter (fun q => !(q.id == qid)),
            paperQuestions := db.paperQuestions.filter (fun pq => !(pq.questionId == qid)),
            examQuestions := db.examQuestions.filter (fun e => !(e.questionId == qid)) }

/-- Modelled from the spec: the answer models are not under `src/`; the
cascade signal's comment says answers "might PROTECT Question", so a
question referenced by an answer cannot be deleted directly. -/
def questionProtected (db : DB) (qid : Nat) : Bool :=
  db.answers.any (fun a => a.questionId == qid)
    || db.examAnswers.any (fun a => a.questionId == qid)

/-- The body of `QuestionPaper.delete` before `super().delete()`
(questions/models.py): for each linked question id, count the links from
*other* papers; when that count is zero, try to delete the question,
swallowing any failure (`except Exception: pass`). -/
def questionpaper_delete_pass (db : DB) (pid : Nat) : DB :=
  (linkedQuestionIds db pid).foldl
    (fun s qid =>
      let otherRel := (s.paperQuestions.filter
        (fun pq => pq.questionId == qid && !(pq.paperId == pid))).length
      if otherRel = 0 then
        if questionProtected s qid then s else deleteQuestionRow s qid
      else s)
    db

/-- Which cascade step of `delete_linked_questions` raises, if any: the
signal wraps its whole body in `try/except` and only logs a failure. -/
structure FailSpec where
  failAssignments : Bool
  failCandAnswers : Bool
  failExamAnswers : Bool
  failQuestions : Bool
deriving Repr, DecidableEq

/-- The failure-free run. -/
def noFail : FailSpec :=
  { failAssignments := false, failCandAnswers := false,
    failExamAnswers := false, failQuestions := false }

/-- Assignments referencing the paper by `primary_paper` or
`common_paper`. -/
def assignmentsOf (db : DB) (pid : Nat) : List ExamAssignment :=
  db.assignments.filter (fun a =>
    decide (a.primaryPaperId = some pid) || decide (a.commonPaperId = some pid))

/-- The assignment step of the signal: delete the attempts of the
assignments linked to the paper, then the assignments. -/
def deleteAssignmentsStep (db : DB) (pid : Nat) : DB :=
  let asg := assignmentsOf db pid
  if asg.isEmpty then db
  else
    { db with
        attempts := db.attempts.filter (fun t => !(asg.any (fun a => a.id == t.assignmentId))),
        assignments := db.assignments.filter (fun a =>
          !(decide (a.primaryPaperId = some pid) || decide (a.commonPaperId = some pid))) }

/-- `delete_linked_questions` (questions/signals.py), the `pre_delete`
receiver on `QuestionPaper`: collect every linked question id; when any
exist, delete assignments and their attempts, `CandidateAnswer`s and
`exams.Answer`s referencing those questions, and then the questions
themselves — ALL of them, with no exclusivity check.  Each step is one
queryset delete; a raising step leaves the earlier steps' effects in
place and the `except` swallows the exception, so the function always
returns. -/
def delete_linked_questions (fs : FailSpec) (db : DB) (pid : Nat) : DB :=
  let qids := linkedQuestionIds db pid
  if qids.isEmpty then db
  else if fs.failAssignments then db
  else
    let s1 := deleteAssignmentsStep db pid
    if fs.failCandAnswers then s1
    else
      let s2 := { s1 with answers := s1.answers.filter (fun a => !(qids.contains a.questionId)) }
      if fs.failExamAnswers then s2
      else
        let s3 := { s2 with examAnswers := s2.examAnswers.filter (fun a => !(qids.contains a.questionId)) }
        if fs.failQuestions then s3
        else qids.foldl deleteQuestionRow s3

/-- Whether deleting the paper row raises `ProtectedError`: assignments
reference papers with a protecting foreign key (the signal deletes them
first exactly "to avoid ProtectedError"). -/
def paperProtected (db : DB) (pid : Nat) : Bool :=
  !(assignmentsOf db pid).isEmpty

/-- Django's collector for `QuestionPaper`: remove the paper row, its
`PaperQuestion` links, its `ExamSession`s and their `ExamQuestion` rows
(all `on_delete=CASCADE`), and — modelled from the spec, the answer model
being outside `src/` — the paper's `CandidateAnswer`s. -/
def collectorDeletePaper (db : DB) (pid : Nat) : DB :=
  let sids := (db.sessions.filter (fun s => s.paperId == pid)).map ExamSession.id
  { db with papers := db.papers.filter (fun p => !(p.id == pid)),
            paperQuestions := db.paperQuestions.filter (fun pq => !(pq.paperId == pid)),
            sessions := db.sessions.filter (fun s => !(s.paperId == pid)),
            examQuestions := db.examQuestions.filter (fun e => !(sids.contains e.sessionId)),
            answers := db.answers.filter (fun a => !(a.paperId == pid)) }

/-- Bulk deletion entry point (`QuestionPaper.objects.filter(...)
.delete()`, as admin bulk delete uses): the `pre_delete` signal runs,
then the collector removes the paper; a `ProtectedError` aborts the
paper's own removal but the signal's already-executed deletions persist
(no enclosing transaction).  Returns the final state and whether the
paper row was removed. -/
def paperDeleteBulk (fs : FailSpec) (db : DB) (pid : Nat) : DB × Bool :=
  let s := delete_linked_questions fs db pid
  if paperProtected s pid then (s, false)
  else (collectorDeletePaper s pid, true)

/-- Single-record entry point (`QuestionPaperAdmin.delete_model`, which
wraps `obj.delete()` in `transaction.atomic`): the exclusivity pass of
`QuestionPaper.delete`, then `super().delete()` (signal + collector);
a `ProtectedError` rolls the whole transaction back to the initial
state. -/
def paperDeleteModel (fs : FailSpec) (db : DB) (pid : Nat) : DB × Bool :=
  let s1 := questionpaper_delete_pass db pid
  let s2 := delete_linked_questions fs s1 pid
  if paperProtected s2 pid then (db, false)
  else (collectorDeletePaper s2 pid, true)

/-! ## Theorems -/

/-- Claim C9, counterexample: the part-F row `["F", "Is water wet"]` has
all choice cells missing, yet the parsed record's option list is `None`,
not the synthesized `{"TRUE","FALSE"}` — the synthesis branch requires
`len(row) > 5`. -/
theorem c9_counterexample :
    ∃ pq, load_questions_row [Cell.str "F", Cell.str "Is water wet"] = some pq
      ∧ pq.part = "F" ∧ pq.options ≠ some ["TRUE", "FALSE"] := by
  refine ⟨{ text := "Is water wet", part := "F", marks := 1,
            options := Option.none, correctAnswer := Option.none }, ?_, ?_, ?_⟩
  · decide
  · decide
  · decide

/-- Claim C9 (amended): for every parsed row with more than five cells
whose part is `F` and whose two examined choice cells (indices 2 and 3)
contribute no choice, the option list is exactly `{"TRUE","FALSE"}`;
part-F rows with five or fewer cells get no option list at all. -/
theorem c9_partF_default_options :
    ∀ (row : List Cell) (pq : ParsedQuestion),
      load_questions_row row = some pq → pq.part = "F" → 5 < row.length →
      choiceCellStr? row 2 = Option.none → choiceCellStr? row 3 = Option.none →
      pq.options = some ["TRUE", "FALSE"] := by
  intro row pq h hp hlen h2 h3
  simp only [load_questions_row] at h
  split at h
  · exact absurd h (by simp)
  · split at h
    · exact absurd h (by simp)
    · rw [Option.some_inj] at h
      subst h
      simp only at hp ⊢
      rw [hp]
      simp only [List.range', List.filterMap_cons, h2, h3, List.filterMap_nil]
      simp [hlen]

/-- Claim C9, witness for the amended theorem at the concrete six-cell
row `["F", "Q", None, None, None, None]`. -/
theorem c9_partF_default_options_witness :
    ∃ pq, load_questions_row
        [Cell.str "F", Cell.str "Q", Cell.none, Cell.none, Cell.none, Cell.none] = some pq
      ∧ pq.options = some ["TRUE", "FALSE"] := by
  refine ⟨{ text := "Q", part := "F", marks := 1,
            options := some ["TRUE", "FALSE"], correctAnswer := Option.none }, ?h, ?_⟩
  case h => decide
  exact c9_partF_default_options
    [Cell.str "F", Cell.str "Q", Cell.none, Cell.none, Cell.none, Cell.none]
    { text := "Q", part := "F", marks := 1,
      options := some ["TRUE", "FALSE"], correctAnswer := Option.none }
    (by decide) (by decide) (by decide) (by decide) (by decide)

/-- A question shared by two papers: the active question 1 is linked to
paper 1 and to paper 2. -/
def sharedQuestionDb : DB :=
  { questions := [{ id := 1, text := "Q1", part := "A", marks := 1,
                    options := Option.none, correctAnswer := Option.none,
                    trade := Option.none, category := Option.none,
                    uploadRef := Option.none, isActive := true }],
    papers := [{ id := 1, category := Option.none, trade := Option.none, isActive := true },
               { id := 2, category := Option.none, trade := Option.none, isActive := true }],
    paperQuestions := [{ paperId := 1, questionId := 1, order := 1 },
                       { paperId := 2, questionId := 1, order := 1 }],
    sessions := [], examQuestions := [], answers := [],
    assignments := [], attempts := [], examAnswers := [] }

/-- Claim C1: on the state where question 1 is linked to papers 1 and 2,
deleting paper 1 — through either entry point — deletes question 1 even
though paper 2 still links to it: `delete_linked_questions` removes every
linked question with no exclusivity check, overriding the `refCount`
logic of `QuestionPaper.delete`.  The claim (and the admin's own
"removed N exclusive question(s)" report) says question 1 must survive
until paper 2 is also deleted. -/
theorem c1_shared_question_deleted :
    (paperDeleteModel noFail sharedQuestionDb 1).1.questions = []
    ∧ (paperDeleteBulk noFail sharedQuestionDb 1).1.questions = []
    ∧ sharedQuestionDb.paperQuestions.any
        (fun pq => pq.paperId == 2 && pq.questionId == 1) = true := by
  refine ⟨by decide, by decide, by decide⟩

/-- A paper whose only linked question is referenced by an
`exams.Answer` row; no assignments and no candidate answers exist. -/
def cascadeFailDb : DB :=
  { questions := [{ id := 1, text := "Q1", part := "A", marks := 1,
                    options := Option.none, correctAnswer := Option.none,
                    trade := Option.none, category := Option.none,
                    uploadRef := Option.none, isActive := true }],
    papers := [{ id := 1, category := Option.none, trade := Option.none, isActive := true }],
    paperQuestions := [{ paperId := 1, questionId := 1, order := 1 }],
    sessions := [], examQuestions := [], answers := [],
    assignments := [], attempts := [],
    examAnswers := [{ id := 7, questionId := 1 }] }

/-- The run of the cascade in which the `exams.Answer` deletion step
raises. -/
def examAnswersFail : FailSpec :=
  { failAssignments := false, failCandAnswers := false,
    failExamAnswers := true, failQuestions := false }

/-- Claim C7, counterexample: when the `exams.Answer` deletion step of
the cascade fails, the `except` in `delete_linked_questions` swallows the
exception and the paper is still deleted — the final state has the paper
gone while its linked question and the answer row survive.  Nothing is
rolled back, contradicting "no partial cascade state is ever
persisted". -/
theorem c7_counterexample :
    (paperDeleteBulk examAnswersFail cascadeFailDb 1).2 = true
    ∧ (paperDeleteBulk examAnswersFail cascadeFailDb 1).1.papers = []
    ∧ (paperDeleteBulk examAnswersFail cascadeFailDb 1).1.questions
        = cascadeFailDb.questions
    ∧ (paperDeleteBulk examAnswersFail cascadeFailDb 1).1.examAnswers
        = cascadeFailDb.examAnswers := by
  refine ⟨by decide, by decide, by decide, by decide⟩

/-- Deleting question rows never touches the paper table. -/
theorem foldl_deleteQuestionRow_papers (qids : List Nat) :
    ∀ s : DB, (qids.foldl deleteQuestionRow s).papers = s.papers := by
  induction qids with
  | nil => intro s; rfl
  | cons q t ih =>
      intro s
      simpa [List.foldl] using ih (deleteQuestionRow s q)

/-- Deleting question rows never touches the assignment table. -/
theorem foldl_deleteQuestionRow_assignments (qids : List Nat) :
    ∀ s : DB, (qids.foldl deleteQuestionRow s).assignments = s.assignments := by
  induction qids with
  | nil => intro s; rfl
  | cons q t ih =>
      intro s
      simpa [List.foldl] using ih (deleteQuestionRow s q)

/-- The assignment step never touches the paper table. -/
theorem deleteAssignmentsStep_papers (db : DB) (pid : Nat) :
    (deleteAssignmentsStep db pid).papers = db.papers := by
  by_cases h : (assignmentsOf db pid).isEmpty <;>
    simp [deleteAssignmentsStep, h]

/-- The assignment step only removes assignments. -/
theorem deleteAssignmentsStep_assignments_sub (db : DB) (pid : Nat) :
    ∀ a ∈ (deleteAssignmentsStep db pid).assignments, a ∈ db.assignments := by
  intro a ha
  by_cases h : (assignmentsOf db pid).isEmpty <;>
    simp [deleteAssignmentsStep, h] at ha
  · exact ha
  · exact ha.1

/-- The cascade signal never touches the paper table. -/
theorem delete_linked_questions_papers (fs : FailSpec) (db : DB) (pid : Nat) :
    (delete_linked_questions fs db pid).papers = db.papers := by
  simp only [delete_linked_questions]
  by_cases h0 : (linkedQuestionIds db pid).isEmpty <;>
    by_cases h1 : fs.failAssignments <;>
      by_cases h2 : fs.failCandAnswers <;>
        by_cases h3 : fs.failExamAnswers <;>
          by_cases h4 : fs.failQuestions <;>
            simp [h0, h1, h2, h3, h4, foldl_deleteQuestionRow_papers,
              deleteAssignmentsStep_papers]

/-- The cascade signal only ever removes assignments. -/
theorem delete_linked_questions_assignments_sub (fs : FailSpec) (db : DB) (pid : Nat) :
    ∀ a ∈ (delete_linked_questions fs db pid).assignments, a ∈ db.assignments := by
  intro a
  simp only [delete_linked_questions]
  by_cases h0 : (linkedQuestionIds db pid).isEmpty <;>
    by_cases h1 : fs.failAssignments <;>
      by_cases h2 : fs.failCandAnswers <;>
        by_cases h3 : fs.failExamAnswers <;>
          by_cases h4 : fs.failQuestions <;>
            simp only [h0, h1, h2, h3, h4, if_true, if_false,
              foldl_deleteQuestionRow_assignments, ite_true, ite_false,
              Bool.false_eq_true, Bool.true_eq_false, not_false_iff] <;>
            first
              | exact fun ha => ha
              | exact fun ha => deleteAssignmentsStep_assignments_sub db pid a ha

/-- Claim C7 (amended): a failure in any cascade step is caught and
logged by `delete_linked_questions`; the remaining steps are skipped and
the paper deletion still completes, so the effects of the steps that did
run persist alongside the paper's removal — nothing is rolled back.  (In
particular, when the very first step fails, the signal leaves the store
untouched and only the paper row and its own cascading rows are
removed.)  Stated for states with no assignment referencing the paper,
where no `ProtectedError` interferes. -/
theorem c7_failures_swallowed (fs : FailSpec) (db : DB) (pid : Nat)
    (h : assignmentsOf db pid = []) :
    (paperDeleteBulk fs db pid).2 = true
    ∧ (paperDeleteBulk fs db pid).1.papers
        = db.papers.filter (fun p => !(p.id == pid))
    ∧ (fs.failAssignments = true → delete_linked_questions fs db pid = db) := by
  have hsub := delete_linked_questions_assignments_sub fs db pid
  have hnone : assignmentsOf (delete_linked_questions fs db pid) pid = [] := by
    unfold assignmentsOf at h ⊢
    rw [List.filter_eq_nil_iff] at h ⊢
    intro a ha
    exact h a (hsub a ha)
  have hprot : paperProtected (delete_linked_questions fs db pid) pid = false := by
    unfold paperProtected
    rw [hnone]
    rfl
  refine ⟨?_, ?_, ?_⟩
  · simp only [paperDeleteBulk]
    rw [hprot]
    rfl
  · simp only [paperDeleteBulk]
    rw [hprot]
    simp only [Bool.false_eq_true, if_false, collectorDeletePaper]
    rw [delete_linked_questions_papers]
  · intro hfa
    simp only [delete_linked_questions]
    by_cases h0 : (linkedQuestionIds db pid).isEmpty <;> simp [h0, hfa]

/-- Claim C7, witness for the amended theorem: on the concrete failing
run, the paper row is removed even though a cascade step failed. -/
theorem c7_failures_swallowed_witness :
    (paperDeleteBulk examAnswersFail cascadeFailDb 1).2 = true
    ∧ (paperDeleteBulk examAnswersFail cascadeFailDb 1).1.papers = [] := by
  have h := c7_failures_swallowed examAnswersFail cascadeFailDb 1 (by decide)
  exact ⟨h.1, h.2.1.trans (by decide)⟩

/-- Mapping a list with a function that neither changes the predicate's
verdict nor the elements the predicate keeps leaves the filtered list
unchanged. -/
theorem filter_map_invariant {α : Type} (f : α → α) (p : α → Bool) (l : List α)
    (h : ∀ a, (p (f a) = p a) ∧ (p a = true → f a = a)) :
    (l.map f).filter p = l.filter p := by
  induction l with
  | nil => rfl
  | cons a t ih =>
      simp only [List.map_cons, List.filter_cons, (h a).1]
      cases hpa : p a with
      | false => simpa using ih
      | true => rw [(h a).2 hpa]; simpa using ih

/-- Upserting an answer never touches the question table. -/
theorem upsertAnswer_questions (s : DB) (c p q : Nat) (v : String) :
    (upsertAnswer s c p q v).questions = s.questions := by
  by_cases h : (s.answers.any (fun a =>
      a.candidateId == c && a.paperId == p && a.questionId == q)) <;>
    simp [upsertAnswer, h]

/-- Upserting an answer for one question leaves the answers of every
other question untouched. -/
theorem upsertAnswer_filter_ne (s : DB) (c p q' : Nat) (v : String) (q : Nat)
    (hne : q' ≠ q) :
    ((upsertAnswer s c p q' v).answers.filter (fun a => a.questionId == q))
      = s.answers.filter (fun a => a.questionId == q) := by
  by_cases h : (s.answers.any (fun a =>
      a.candidateId == c && a.paperId == p && a.questionId == q')) <;>
    simp only [upsertAnswer, h, if_true, if_false, ite_true, ite_false,
      Bool.false_eq_true]
  · refine filter_map_invariant _ _ _ ?_
    intro a
    constructor
    · by_cases hk : (a.candidateId == c && a.paperId == p && a.questionId == q') = true
      · rw [if_pos hk]
      · rw [if_neg hk]
    · intro hq
      have haq : a.questionId = q := by simpa using hq
      have : (a.candidateId == c && a.paperId == p && a.questionId == q') = false := by
        simp [haq, hne.symm]
      rw [this]
      simp
  · rw [List.filter_append]
    have : (List.filter (fun a => a.questionId == q)
        [({ candidateId := c, paperId := p, questionId := q', answer := v } : CandidateAnswer)]) = [] := by
      simp [hne]
    rw [this, List.append_nil]

/-- A `question_<qid>` field whose id does not resolve to an active
question changes nothing about that question's answers, whatever else
the POST contains. -/
theorem processAnswerPost_filter_unresolved (cand pid qid : Nat)
    (post : List (Nat × String)) :
    ∀ db : DB, db.questions.any (fun q => q.id == qid && q.isActive) = false →
      ((processAnswerPost db cand pid post).answers.filter (fun a => a.questionId == qid))
        = db.answers.filter (fun a => a.questionId == qid) := by
  induction post with
  | nil => intro db _; rfl
  | cons kv t ih =>
      intro db h
      simp only [processAnswerPost, List.foldl_cons]
      by_cases hg : (db.questions.any (fun q => q.id == kv.1 && q.isActive)) = true
      · rw [if_pos hg]
        have hne : kv.1 ≠ qid := by
          intro he
          rw [he] at hg
          rw [h] at hg
          exact Bool.false_ne_true hg
        have h2 : (upsertAnswer db cand pid kv.1 (pyStrip kv.2)).questions.any
            (fun q => q.id == qid && q.isActive) = false := by
          rw [upsertAnswer_questions]
          exact h
        have := ih (upsertAnswer db cand pid kv.1 (pyStrip kv.2)) h2
        simp only [processAnswerPost] at this
        rw [this]
        exact upsertAnswer_filter_ne db cand pid kv.1 (pyStrip kv.2) qid hne
      · rw [if_neg hg]
        have := ih db h
        simp only [processAnswerPost] at this
        exact this

/-- A paper-1 session for user 5 whose snapshot contains only question 1,
while question 2 is an active question outside the snapshot. -/
def injectionDb : DB :=
  { questions := [{ id := 1, text := "Q1", part := "A", marks := 1,
                    options := Option.none, correctAnswer := Option.none,
                    trade := Option.none, category := Option.none,
                    uploadRef := Option.none, isActive := true },
                  { id := 2, text := "Q2", part := "A", marks := 1,
                    options := Option.none, correctAnswer := Option.none,
                    trade := Option.none, category := Option.none,
                    uploadRef := Option.none, isActive := true }],
    papers := [{ id := 1, category := Option.none, trade := Option.none, isActive := true }],
    paperQuestions := [{ paperId := 1, questionId := 1, order := 1 }],
    sessions := [{ id := 1, paperId := 1, userId := 5, trade := Option.none,
                   startedAt := 10, completedAt := Option.none,
                   durationSecs := some 3600, totalQuestions := 1 }],
    examQuestions := [{ sessionId := 1, questionId := 1, order := 1 }],
    answers := [{ candidateId := 9, paperId := 1, questionId := 1, answer := "" }],
    assignments := [], attempts := [], examAnswers := [] }

/-- The session of `injectionDb`, as the view holds it. -/
def injectionSession : ExamSession :=
  { id := 1, paperId := 1, userId := 5, trade := Option.none,
    startedAt := 10, completedAt := Option.none,
    durationSecs := some 3600, totalQuestions := 1 }

/-- Claim C2, counterexample: question 2 is active but NOT in the
session's `ExamQuestion` snapshot, yet submitting `question_2` on the
non-completed session records an answer for it — the POST loop checks
only `Question.objects.get(id=qid, is_active=True)`, never snapshot
membership, so answers for foreign questions are not skipped. -/
theorem c2_counterexample :
    injectionDb.examQuestions.any (fun e => e.questionId == 2) = false
    ∧ injectionDb.questions.any (fun q => q.id == 2 && q.isActive) = true
    ∧ injectionSession.completedAt = Option.none
    ∧ ((exam_interface_post injectionDb injectionSession 9 [(2, "inject")] 99).1.answers.any
        (fun a => a.candidateId == 9 && a.paperId == 1 && a.questionId == 2
          && a.answer == "inject")) = true := by
  refine ⟨by decide, by decide, by decide, by decide⟩

/-- Claim C2 (amended): on any answer submission, a submitted
`questionId` that does not resolve to an existing active question is
silently skipped — no `AnswerRecord` for it is created or modified; but
snapshot membership is not checked, so an answer CAN be recorded for an
active question outside the candidate's own snapshot (see the
counterexample). -/
theorem c2_unresolved_skipped (db : DB) (sess : ExamSession) (cand : Nat)
    (post : List (Nat × String)) (now qid : Nat)
    (h : db.questions.any (fun q => q.id == qid && q.isActive) = false) :
    ((exam_interface_post db sess cand post now).1.answers.filter
        (fun a => a.questionId == qid))
      = db.answers.filter (fun a => a.questionId == qid) := by
  by_cases hc : sess.completedAt.isSome
  · simp [exam_interface_post, hc]
  · simp only [exam_interface_post, hc, Bool.false_eq_true, if_false,
      finishSession]
    exact processAnswerPost_filter_unresolved cand sess.paperId qid post db h

/-- Claim C2, witness for the amended theorem: submitting an id (77) that
resolves to no question leaves the answer table's rows for that id
unchanged (empty). -/
theorem c2_unresolved_skipped_witness :
    ((exam_interface_post injectionDb injectionSession 9 [(77, "x")] 99).1.answers.filter
        (fun a => a.questionId == 77))
      = injectionDb.answers.filter (fun a => a.questionId == 77) :=
  c2_unresolved_skipped injectionDb injectionSession 9 [(77, "x")] 99 77 (by decide)

/-- Claim C8: finishing a non-completed session marks its stored row with
`completedAt = now`, and every subsequent POST on that session is
rejected as already submitted, returning the store completely unchanged —
the completed state is terminal and no `AnswerRecord` or session field is
touched again. -/
theorem c8_completed_terminal (db : DB) (sess : ExamSession) (cand : Nat)
    (post : List (Nat × String)) (now : Nat) (h : sess.completedAt = Option.none) :
    (exam_interface_post db sess cand post now).2 = PostResult.success
    ∧ ∀ s', ((exam_interface_post db sess cand post now).1.sessions.find?
          (fun s => s.id == sess.id)) = some s' →
        s'.completedAt = some now
        ∧ ∀ (c2 : Nat) (p2 : List (Nat × String)) (n2 : Nat),
            exam_interface_post (exam_interface_post db sess cand post now).1 s' c2 p2 n2
              = ((exam_interface_post db sess cand post now).1, PostResult.alreadySubmitted) := by
  have hns : sess.completedAt.isSome = false := by rw [h]; rfl
  constructor
  · simp [exam_interface_post, hns]
  · intro s' hfind
    have hcomp : s'.completedAt = some now := by
      simp only [exam_interface_post, hns, Bool.false_eq_true, if_false,
        finishSession] at hfind
      have hmem := List.mem_of_find?_eq_some hfind
      have hpred := List.find?_some hfind
      rw [List.mem_map] at hmem
      obtain ⟨y, _, hy⟩ := hmem
      by_cases hid : (y.id == sess.id) = true
      · rw [if_pos hid] at hy
        rw [← hy]
      · rw [if_neg hid] at hy
        rw [← hy] at hpred
        exact absurd hpred (by simpa using hid)
    refine ⟨hcomp, ?_⟩
    intro c2 p2 n2
    have : s'.completedAt.isSome = true := by rw [hcomp]; rfl
    simp [exam_interface_post, this]

/-- A single non-completed paper-1 session for user 5. -/
def finishDb : DB :=
  { questions := [],
    papers := [{ id := 1, category := Option.none, trade := Option.none, isActive := true }],
    paperQuestions := [],
    sessions := [{ id := 1, paperId := 1, userId := 5, trade := Option.none,
                   startedAt := 10, completedAt := Option.none,
                   durationSecs := some 3600, totalQuestions := 0 }],
    examQuestions := [], answers := [], assignments := [], attempts := [],
    examAnswers := [] }

/-- The session of `finishDb`, as the view holds it. -/
def finishSess : ExamSession :=
  { id := 1, paperId := 1, userId := 5, trade := Option.none,
    startedAt := 10, completedAt := Option.none,
    durationSecs := some 3600, totalQuestions := 0 }

/-- The stored row of `finishSess` after the first successful POST. -/
def finishedSess : ExamSession :=
  { id := 1, paperId := 1, userId := 5, trade := Option.none,
    startedAt := 10, completedAt := some 50,
    durationSecs := some 3600, totalQuestions := 0 }

/-- Claim C8, witness: the concrete finished session rejects a later
submission and leaves the store unchanged. -/
theorem c8_completed_terminal_witness :
    (exam_interface_post finishDb finishSess 9 [] 50).2 = PostResult.success
    ∧ exam_interface_post (exam_interface_post finishDb finishSess 9 [] 50).1
        finishedSess 9 [] 60
      = ((exam_interface_post finishDb finishSess 9 [] 50).1, PostResult.alreadySubmitted) := by
  have h := c8_completed_terminal finishDb finishSess 9 [] 50 rfl
  exact ⟨h.1, (h.2 finishedSess (by decide)).2 9 [] 60⟩

/-- A store that already holds a session for the pair (paper 1, user 5). -/
def duplicateDb : DB :=
  { questions := [{ id := 1, text := "Q1", part := "A", marks := 1,
                    options := Option.none, correctAnswer := Option.none,
                    trade := Option.none, category := Option.none,
                    uploadRef := Option.none, isActive := true }],
    papers := [{ id := 1, category := Option.none, trade := Option.none, isActive := true }],
    paperQuestions := [{ paperId := 1, questionId := 1, order := 1 }],
    sessions := [{ id := 1, paperId := 1, userId := 5, trade := Option.none,
                   startedAt := 10, completedAt := Option.none,
                   durationSecs := some 3600, totalQuestions := 1 }],
    examQuestions := [{ sessionId := 1, questionId := 1, order := 1 }],
    answers := [], assignments := [], attempts := [], examAnswers := [] }

/-- The duplicate session the second creation attempt commits. -/
def dupSess2 : ExamSession :=
  { id := 2, paperId := 1, userId := 5, trade := Option.none,
    startedAt := 20, completedAt := Option.none,
    durationSecs := some 3600, totalQuestions := 1 }

/-- The store after the duplicate creation. -/
def duplicateDbAfter : DB :=
  { duplicateDb with
      sessions := duplicateDb.sessions ++ [dupSess2],
      examQuestions := duplicateDb.examQuestions
        ++ [{ sessionId := 2, questionId := 1, order := 1 }],
      answers := [{ candidateId := 9, paperId := 1, questionId := 1, answer := "" }] }

/-- Claim C3, counterexample: a second creation attempt for a pair that
already has a session (the concurrent request that observed "no existing
session") commits a duplicate: `generate_for_candidate` inserts
unconditionally, the store ends up with two sessions for
(paper 1, user 5), and the result satisfies every uniqueness constraint
the schema declares — `ExamSession` has no constraint on the pair, so
"at most one session per pair" is NOT a store invariant. -/
theorem c3_counterexample :
    generate_for_candidate duplicateDb 1 9 5 Option.none Option.none (some 3600) 20
        [{ paperId := 1, questionId := 1, order := 1 }] 2
      = Except.ok (duplicateDbAfter, dupSess2)
    ∧ (duplicateDbAfter.sessions.filter (fun s => s.paperId == 1 && s.userId == 5)).length = 2
    ∧ schemaOk duplicateDbAfter := by
  refine ⟨by rfl, by decide, by decide⟩

/-- Helper: the running maximum inside `latestSession` never collapses
back to `none` once it holds a session. -/
theorem latestSession_aux_some (l : List ExamSession) :
    ∀ t, ∃ u, l.foldl
      (fun acc s =>
        match acc with
        | Option.none => some s
        | some t => if t.startedAt < s.startedAt then some s else some t)
      (some t) = some u := by
  induction l with
  | nil => intro t; exact ⟨t, rfl⟩
  | cons a l ih =>
      intro t
      simp only [List.foldl_cons]
      by_cases hlt : t.startedAt < a.startedAt
      · have := ih a
        simpa [hlt] using this
      · have := ih t
        simpa [hlt] using this

/-- Helper: `latestSession` returns `none` exactly when the pair has no
session at all. -/
theorem latestSession_none_filter (db : DB) (pid uid : Nat)
    (h : latestSession db pid uid = Option.none) :
    db.sessions.filter (fun s => s.paperId == pid && s.userId == uid) = [] := by
  unfold latestSession at h
  cases hf : db.sessions.filter (fun s => s.paperId == pid && s.userId == uid) with
  | nil => rfl
  | cons a t =>
      rw [hf] at h
      simp only [List.foldl_cons] at h
      obtain ⟨u, hu⟩ := latestSession_aux_some t a
      rw [hu] at h
      exact absurd h (by simp)

/-- Claim C3 (amended): sequential idempotence holds — when `getOrCreate`
returns a session, calling it again for the same pair returns the
identical session and the identical store (so exactly one snapshot
exists) — but the schema declares no uniqueness constraint on
(candidate, paper), and a second concurrent creation attempt does commit
a duplicate session (see the counterexample). -/
theorem c3_sequential_idempotent (db : DB) (pid candId userId : Nat)
    (trade paperTrade dur : Option Nat) (now : Nat)
    (shuffled : List PaperQuestion) (sid : Nat)
    (db1 : DB) (s1 : ExamSession)
    (h : getOrCreateSession db pid candId userId trade paperTrade dur now shuffled sid
          = Except.ok (db1, s1))
    (trade2 paperTrade2 dur2 : Option Nat) (now2 : Nat)
    (shuffled2 : List PaperQuestion) (sid2 : Nat) :
    getOrCreateSession db1 pid candId userId trade2 paperTrade2 dur2 now2 shuffled2 sid2
      = Except.ok (db1, s1) := by
  unfold getOrCreateSession at h ⊢
  cases hl : latestSession db pid userId with
  | some s =>
      rw [hl] at h
      have h1 : db = db1 ∧ s = s1 := by
        have := h
        simp only [Except.ok.injEq, Prod.mk.injEq] at this
        exact this
      rw [← h1.1, hl, h1.2]
  | none =>
      rw [hl] at h
      unfold generate_for_candidate at h
      by_cases hne : (paperActiveLinks db pid).isEmpty
      · rw [if_pos hne] at h
        exact absurd h (by simp)
      · rw [if_neg hne] at h
        simp only [Except.ok.injEq, Prod.mk.injEq] at h
        obtain ⟨hdb, hs⟩ := h
        have hfil := latestSession_none_filter db pid userId hl
        have hs1pid : (s1.paperId == pid && s1.userId == userId) = true := by
          rw [← hs]
          simp
        have hlat : latestSession db1 pid userId = some s1 := by
          unfold latestSession
          rw [← hdb, ← hs]
          simp [List.filter_append, hfil]
        rw [hlat]

/-- A store with no session yet for (paper 1, user 5). -/
def freshPairDb : DB :=
  { questions := [{ id := 1, text := "Q1", part := "A", marks := 1,
                    options := Option.none, correctAnswer := Option.none,
                    trade := Option.none, category := Option.none,
                    uploadRef := Option.none, isActive := true }],
    papers := [{ id := 1, category := Option.none, trade := Option.none, isActive := true }],
    paperQuestions := [{ paperId := 1, questionId := 1, order := 1 }],
    sessions := [], examQuestions := [], answers := [],
    assignments := [], attempts := [], examAnswers := [] }

/-- The session the first `getOrCreate` on `freshPairDb` creates. -/
def freshPairSess : ExamSession :=
  { id := 1, paperId := 1, userId := 5, trade := Option.none,
    startedAt := 10, completedAt := Option.none,
    durationSecs := some 3600, totalQuestions := 1 }

/-- The store after the first `getOrCreate` on `freshPairDb`. -/
def freshPairDbAfter : DB :=
  { freshPairDb with
      sessions := [freshPairSess],
      examQuestions := [{ sessionId := 1, questionId := 1, order := 1 }],
      answers := [{ candidateId := 9, paperId := 1, questionId := 1, answer := "" }] }

/-- Claim C3, witness for the amended theorem: the second `getOrCreate`
on the concrete store returns the first call's session and store. -/
theorem c3_sequential_idempotent_witness :
    getOrCreateSession freshPairDbAfter 1 9 5 Option.none Option.none (some 7200) 99 [] 7
      = Except.ok (freshPairDbAfter, freshPairSess) :=
  c3_sequential_idempotent freshPairDb 1 9 5 Option.none Option.none (some 3600) 10
    [{ paperId := 1, questionId := 1, order := 1 }] 1 freshPairDbAfter freshPairSess
    (by rfl) Option.none Option.none (some 7200) 99 [] 7

/-- Claim C10: the snapshot persisted by `generate_for_candidate` carries
order values that are exactly the consecutive integers
`1..totalQuestions`, and its multiset of questions equals the paper's
active linked questions at creation time — the shuffle only permutes,
never drops or repeats.  (`shuffled` is the output of `random.shuffle`,
hypothesized to permute the links; `sid` is the fresh session id.) -/
theorem c10_snapshot_orders (db : DB) (pid candId userId : Nat)
    (trade paperTrade dur : Option Nat) (now : Nat)
    (shuffled : List PaperQuestion) (sid : Nat)
    (hperm : shuffled.Perm (paperActiveLinks db pid))
    (hfresh : ∀ e ∈ db.examQuestions, e.sessionId ≠ sid)
    (db1 : DB) (sess : ExamSession)
    (h : generate_for_candidate db pid candId userId trade paperTrade dur now shuffled sid
          = Except.ok (db1, sess)) :
    ((db1.examQuestions.filter (fun e => e.sessionId == sid)).map ExamQuestion.order)
        = List.range' 1 sess.totalQuestions
    ∧ (((db1.examQuestions.filter (fun e => e.sessionId == sid)).map ExamQuestion.questionId).Perm
        ((paperActiveLinks db pid).map PaperQuestion.questionId))
    ∧ sess.totalQuestions = (paperActiveLinks db pid).length := by
  unfold generate_for_candidate at h
  by_cases hne : (paperActiveLinks db pid).isEmpty
  · rw [if_pos hne] at h
    exact absurd h (by simp)
  · rw [if_neg hne] at h
    simp only [Except.ok.injEq, Prod.mk.injEq] at h
    obtain ⟨hdb, hs⟩ := h
    have hsnap : db1.examQuestions.filter (fun e => e.sessionId == sid)
        = shuffled.enum.map (fun ip =>
            ({ sessionId := sid, questionId := ip.2.questionId, order := ip.1 + 1 } : ExamQuestion)) := by
      rw [← hdb]
      simp only [List.filter_append]
      have h1 : db.examQuestions.filter (fun e => e.sessionId == sid) = [] := by
        rw [List.filter_eq_nil_iff]
        intro e he
        simpa using hfresh e he
      have h2 : (shuffled.enum.map (fun ip =>
          ({ sessionId := sid, questionId := ip.2.questionId, order := ip.1 + 1 } : ExamQuestion))).filter
            (fun e => e.sessionId == sid)
          = shuffled.enum.map (fun ip =>
            ({ sessionId := sid, questionId := ip.2.questionId, order := ip.1 + 1 } : ExamQuestion)) := by
        rw [List.filter_eq_self]
        intro e he
        rw [List.mem_map] at he
        obtain ⟨ip, _, hip⟩ := he
        rw [← hip]
        simp
      rw [h1, h2, List.nil_append]
    have htot : sess.totalQuestions = shuffled.length := by
      rw [← hs]
      simp
    refine ⟨?_, ?_, ?_⟩
    · rw [hsnap, htot]
      rw [List.map_map]
      have : (ExamQuestion.order ∘ fun ip : Nat × PaperQuestion =>
          ({ sessionId := sid, questionId := ip.2.questionId, order := ip.1 + 1 } : ExamQuestion))
          = fun ip => ip.1 + 1 := rfl
      rw [this]
      have henum : shuffled.enum.map (fun ip => ip.1 + 1)
          = (List.range shuffled.length).map (fun i => i + 1) := by
        have := List.enum_map_fst shuffled
        calc shuffled.enum.map (fun ip => ip.1 + 1)
            = (shuffled.enum.map Prod.fst).map (fun i => i + 1) := by
              rw [List.map_map]; rfl
          _ = (List.range shuffled.length).map (fun i => i + 1) := by rw [this]
      rw [henum, List.range'_eq_map_range]
      exact (List.map_congr_left (fun i _ => Nat.add_comm 1 i)).symm
    · rw [hsnap, List.map_map]
      have : (ExamQuestion.questionId ∘ fun ip : Nat × PaperQuestion =>
          ({ sessionId := sid, questionId := ip.2.questionId, order := ip.1 + 1 } : ExamQuestion))
          = fun ip => ip.2.questionId := rfl
      rw [this]
      have henum : shuffled.enum.map (fun ip : Nat × PaperQuestion => ip.2.questionId)
          = shuffled.map PaperQuestion.questionId := by
        have := List.enum_map_snd shuffled
        calc shuffled.enum.map (fun ip : Nat × PaperQuestion => ip.2.questionId)
            = (shuffled.enum.map Prod.snd).map PaperQuestion.questionId := by
              rw [List.map_map]; rfl
          _ = shuffled.map PaperQuestion.questionId := by rw [this]
      rw [henum]
      exact hperm.map PaperQuestion.questionId
    · rw [htot]
      exact hperm.length_eq

/-- Claim C10, witness: on the concrete one-question paper, the snapshot
orders are exactly `[1]`. -/
theorem c10_snapshot_orders_witness :
    ((freshPairDbAfter.examQuestions.filter (fun e => e.sessionId == 1)).map ExamQuestion.order)
      = List.range' 1 freshPairSess.totalQuestions :=
  (c10_snapshot_orders freshPairDb 1 9 5 Option.none Option.none (some 3600) 10
    [{ paperId := 1, questionId := 1, order := 1 }] 1 (by decide) (by simp [freshPairDb])
    freshPairDbAfter freshPairSess (by rfl)).1

/-- Claim C4: with no active linked question, `generate_for_candidate`
fails with the no-content `ValidationError` and returns no state (the
view keeps the untouched store); otherwise it returns — as one atomic
`transaction.atomic` unit — the store extended with exactly one new
session, one `ExamQuestion` per active linked question (a whole-sequence
permutation of the links), one empty-string `CandidateAnswer` per
snapshot question keyed `(candidate, paper, question)`, and
`totalQuestions` equal to the snapshot size. -/
theorem c4_generate_spec (db : DB) (pid candId userId : Nat)
    (trade paperTrade dur : Option Nat) (now : Nat)
    (shuffled : List PaperQuestion) (sid : Nat)
    (hperm : shuffled.Perm (paperActiveLinks db pid)) :
    (paperActiveLinks db pid = [] →
      generate_for_candidate db pid candId userId trade paperTrade dur now shuffled sid
        = Except.error ())
    ∧ ∀ db1 sess,
        generate_for_candidate db pid candId userId trade paperTrade dur now shuffled sid
          = Except.ok (db1, sess) →
        db1.questions = db.questions
        ∧ db1.papers = db.papers
        ∧ db1.paperQuestions = db.paperQuestions
        ∧ db1.sessions = db.sessions ++ [sess]
        ∧ sess.completedAt = Option.none
        ∧ sess.totalQuestions = (paperActiveLinks db pid).length
        ∧ ∃ eqs, db1.examQuestions = db.examQuestions ++ eqs
            ∧ (eqs.map ExamQuestion.questionId).Perm
                ((paperActiveLinks db pid).map PaperQuestion.questionId)
            ∧ db1.answers = db.answers
                ++ eqs.map (fun e =>
                  ({ candidateId := candId, paperId := pid,
                     questionId := e.questionId, answer := "" } : CandidateAnswer)) := by
  constructor
  · intro hnil
    unfold generate_for_candidate
    rw [if_pos (by rw [hnil]; rfl)]
  · intro db1 sess h
    unfold generate_for_candidate at h
    by_cases hne : (paperActiveLinks db pid).isEmpty
    · rw [if_pos hne] at h
      exact absurd h (by simp)
    · rw [if_neg hne] at h
      simp only [Except.ok.injEq, Prod.mk.injEq] at h
      obtain ⟨hdb, hs⟩ := h
      have htot : sess.totalQuestions = (paperActiveLinks db pid).length := by
        rw [← hs]
        simpa using hperm.length_eq
      refine ⟨by rw [← hdb], by rw [← hdb], by rw [← hdb], by rw [← hdb, ← hs], ?_, htot, ?_⟩
      · rw [← hs]
      · refine ⟨shuffled.enum.map (fun ip =>
          ({ sessionId := sid, questionId := ip.2.questionId, order := ip.1 + 1 } : ExamQuestion)),
          by rw [← hdb], ?_, by rw [← hdb]⟩
        rw [List.map_map]
        have heq : (ExamQuestion.questionId ∘ fun ip : Nat × PaperQuestion =>
            ({ sessionId := sid, questionId := ip.2.questionId, order := ip.1 + 1 } : ExamQuestion))
            = fun ip => ip.2.questionId := rfl
        rw [heq]
        have henum : shuffled.enum.map (fun ip : Nat × PaperQuestion => ip.2.questionId)
            = shuffled.map PaperQuestion.questionId := by
          have := List.enum_map_snd shuffled
          calc shuffled.enum.map (fun ip : Nat × PaperQuestion => ip.2.questionId)
              = (shuffled.enum.map Prod.snd).map PaperQuestion.questionId := by
                rw [List.map_map]; rfl
            _ = shuffled.map PaperQuestion.questionId := by rw [this]
        rw [henum]
        exact hperm.map PaperQuestion.questionId

/-- Claim C4, witness: on the concrete one-question paper, the session is
appended and sized correctly, and on an empty paper the call errors. -/
theorem c4_generate_spec_witness :
    freshPairDbAfter.sessions = freshPairDb.sessions ++ [freshPairSess]
    ∧ freshPairSess.totalQuestions = (paperActiveLinks freshPairDb 1).length := by
  have h := (c4_generate_spec freshPairDb 1 9 5 Option.none Option.none (some 3600) 10
      [{ paperId := 1, questionId := 1, order := 1 }] 1 (by decide)).2
      freshPairDbAfter freshPairSess (by rfl)
  exact ⟨h.2.2.2.1, h.2.2.2.2.2.1⟩

/-- Master invariant of the import fold: the store grows by exactly the
created records; created records never case-match a pre-existing record
and are pairwise case-distinct; every processed row ends up case-matched
by some stored record. -/
theorem importFold_master (t : Option Nat) (c : Option String) (u : Option Nat)
    (db0 : List Question) :
    ∀ (rows : List ImportRow) (s : DB) (cr : List Question) (n : Nat),
      s.questions = db0 ++ cr →
      (∀ q ∈ cr, ∀ q0 ∈ db0, pyLower q0.text ≠ pyLower q.text) →
      ((cr.map (fun q => pyLower q.text)).Nodup) →
      (rows.foldl (importStep t c u) (s, (cr, n))).1.questions
          = db0 ++ (rows.foldl (importStep t c u) (s, (cr, n))).2.1
      ∧ (∃ l, (rows.foldl (importStep t c u) (s, (cr, n))).2.1 = cr ++ l)
      ∧ (∀ q ∈ (rows.foldl (importStep t c u) (s, (cr, n))).2.1,
          ∀ q0 ∈ db0, pyLower q0.text ≠ pyLower q.text)
      ∧ (((rows.foldl (importStep t c u) (s, (cr, n))).2.1.map
          (fun q => pyLower q.text)).Nodup)
      ∧ (∀ r ∈ rows, ∃ q ∈ (rows.foldl (importStep t c u) (s, (cr, n))).1.questions,
          pyLower q.text = pyLower r.text) := by
  intro rows
  induction rows with
  | nil =>
      intro s cr n h1 h2 h3
      exact ⟨h1, ⟨[], by simp⟩, h2, h3, by simp⟩
  | cons r rows ih =>
      intro s cr n h1 h2 h3
      simp only [List.foldl_cons]
      cases hm1 : iexactMatch s.questions r.text with
      | some qm =>
          have hm1' : s.questions.find?
              (fun q => pyLower q.text == pyLower r.text) = some qm := by
            simpa only [iexactMatch] using hm1
          have hstep : importStep t c u (s, (cr, n)) r = (s, (cr, n)) := by
            simp [importStep, hm1]
          rw [hstep]
          have res := ih s cr n h1 h2 h3
          refine ⟨res.1, res.2.1, res.2.2.1, res.2.2.2.1, ?_⟩
          intro r' hr'
          rcases List.mem_cons.mp hr' with he | hm
          · subst he
            have hqmem : qm ∈ s.questions := List.mem_of_find?_eq_some hm1'
            have hqpred : (pyLower qm.text == pyLower r'.text) = true := by
              simpa using List.find?_some hm1'
            refine ⟨qm, ?_, eq_of_beq hqpred⟩
            rw [res.1]
            obtain ⟨l, hl⟩ := res.2.1
            rw [hl]
            rw [h1] at hqmem
            rw [← List.append_assoc]
            exact List.mem_append_left _ hqmem
          · exact res.2.2.2.2 r' hm
      | none =>
          have hforall : ∀ q ∈ s.questions, pyLower q.text ≠ pyLower r.text := by
            intro q hq heq
            have hnone : ∀ x ∈ s.questions,
                ¬((pyLower x.text == pyLower r.text) = true) :=
              List.find?_eq_none.mp (by simpa only [iexactMatch] using hm1)
            exact hnone q hq (by rw [heq]; exact beq_self_eq_true _)
          have hm2 : s.questions.find? (fun q => q.text == r.text) = Option.none := by
            cases hm2 : s.questions.find? (fun q => q.text == r.text) with
            | none => rfl
            | some qe =>
                have hpe : (qe.text == r.text) = true := by
                  simpa using List.find?_some hm2
                have hmem : qe ∈ s.questions := List.mem_of_find?_eq_some hm2
                exact absurd (congrArg pyLower (eq_of_beq hpe)) (hforall qe hmem)
          have hstep : importStep t c u (s, (cr, n)) r
              = ({ s with questions := s.questions ++ [mkImportQuestion t c u n r] },
                 cr ++ [mkImportQuestion t c u n r], n + 1) := by
            simp [importStep, hm1, hm2]
          rw [hstep]
          have h1' : ({ s with questions := s.questions
                ++ [mkImportQuestion t c u n r] } : DB).questions
              = db0 ++ (cr ++ [mkImportQuestion t c u n r]) := by
            simp only []
            rw [h1, List.append_assoc]
          have h2' : ∀ q ∈ cr ++ [mkImportQuestion t c u n r],
              ∀ q0 ∈ db0, pyLower q0.text ≠ pyLower q.text := by
            intro q hq q0 hq0
            rcases List.mem_append.mp hq with h | h
            · exact h2 q h q0 hq0
            · have hq' : q = mkImportQuestion t c u n r := by simpa using h
              subst hq'
              have hq0s : q0 ∈ s.questions := by
                rw [h1]
                exact List.mem_append_left _ hq0
              exact hforall q0 hq0s
          have h3' : ((cr ++ [mkImportQuestion t c u n r]).map
              (fun q => pyLower q.text)).Nodup := by
            rw [List.map_append, List.nodup_append]
            refine ⟨h3, by simp, ?_⟩
            intro a ha hb
            rw [List.mem_map] at ha
            obtain ⟨qc, hqc, hqa⟩ := ha
            have hqcs : qc ∈ s.questions := by
              rw [h1]
              exact List.mem_append_right _ hqc
            have hne := hforall qc hqcs
            have hb' : a = pyLower (mkImportQuestion t c u n r).text := by simpa using hb
            exact hne (hqa.symm ▸ hb')
          have res := ih ({ s with questions := s.questions ++ [mkImportQuestion t c u n r] })
            (cr ++ [mkImportQuestion t c u n r]) (n + 1) h1' h2' h3'
          refine ⟨res.1, ?_, res.2.2.1, res.2.2.2.1, ?_⟩
          · obtain ⟨l, hl⟩ := res.2.1
            exact ⟨[mkImportQuestion t c u n r] ++ l, by rw [hl, List.append_assoc]⟩
          · intro r' hr'
            rcases List.mem_cons.mp hr' with he | hm
            · subst he
              refine ⟨mkImportQuestion t c u n r', ?_, rfl⟩
              rw [res.1]
              obtain ⟨l, hl⟩ := res.2.1
              rw [hl]
              refine List.mem_append_right _ ?_
              exact List.mem_append_left _ (List.mem_append_right _ (by simp))
            · exact res.2.2.2.2 r' hm

/-- When every row already has a case-insensitive match in the store,
the import fold is a no-op. -/
theorem importFold_const (t : Option Nat) (c : Option String) (u : Option Nat) :
    ∀ (rows : List ImportRow) (s : DB) (cr : List Question) (n : Nat),
      (∀ r ∈ rows, ∃ q ∈ s.questions, pyLower q.text = pyLower r.text) →
      rows.foldl (importStep t c u) (s, (cr, n)) = (s, (cr, n)) := by
  intro rows
  induction rows with
  | nil => intro s cr n _; rfl
  | cons r rows ih =>
      intro s cr n h
      simp only [List.foldl_cons]
      obtain ⟨q, hq, heq⟩ := h r (List.mem_cons_self r rows)
      have hsome : iexactMatch s.questions r.text ≠ Option.none := by
        intro hnone
        have := List.find?_eq_none.mp (by simpa only [iexactMatch] using hnone) q hq
        exact this (by rw [heq]; exact beq_self_eq_true _)
      cases hm1 : iexactMatch s.questions r.text with
      | none => exact absurd hm1 hsome
      | some qm =>
          have hstep : importStep t c u (s, (cr, n)) r = (s, (cr, n)) := by
            simp [importStep, hm1]
          rw [hstep]
          exact ih s cr n (fun r' hr' => h r' (List.mem_cons_of_mem r hr'))

/-- Claim C5: the import is idempotent under case-insensitive matching —
the store grows by exactly the returned (newly created) records, none of
which case-matches a pre-existing active record; no two created records
share a case-insensitive text (two rows differing only in case yield one
record); every row is case-matched by some stored record afterwards; and
re-importing the same rows creates zero new records and leaves the store
unchanged. -/
theorem c5_import_idempotent (db : DB) (rows : List ImportRow)
    (t : Option Nat) (c : Option String) (u : Option Nat) (nid : Nat) :
    (import_questions_from_dicts db rows t c u nid).1.questions
        = db.questions ++ (import_questions_from_dicts db rows t c u nid).2
    ∧ (∀ q ∈ (import_questions_from_dicts db rows t c u nid).2,
        ∀ q0 ∈ db.questions, q0.isActive = true → pyLower q0.text ≠ pyLower q.text)
    ∧ (((import_questions_from_dicts db rows t c u nid).2.map
        (fun q => pyLower q.text)).Nodup)
    ∧ (∀ r ∈ rows, ∃ q ∈ (import_questions_from_dicts db rows t c u nid).1.questions,
        pyLower q.text = pyLower r.text)
    ∧ (∀ nid2, import_questions_from_dicts
          (import_questions_from_dicts db rows t c u nid).1 rows t c u nid2
        = ((import_questions_from_dicts db rows t c u nid).1, [])) := by
  have master := importFold_master t c u db.questions rows db [] nid
    (by simp) (by simp) (by simp)
  simp only [import_questions_from_dicts]
  refine ⟨master.1, ?_, master.2.2.2.1, master.2.2.2.2, ?_⟩
  · intro q hq q0 hq0 _
    exact master.2.2.1 q hq q0 hq0
  · intro nid2
    have hconst := importFold_const t c u rows
      (rows.foldl (importStep t c u) (db, ([], nid))).1 [] nid2
      master.2.2.2.2
    rw [hconst]

/-- The raw material for the import witness: an empty question store. -/
def importDb0 : DB :=
  { questions := [], papers := [], paperQuestions := [], sessions := [],
    examQuestions := [], answers := [], assignments := [], attempts := [],
    examAnswers := [] }

/-- Two import rows whose texts differ only in letter case. -/
def importRowsCase : List ImportRow :=
  [{ text := "Apple", part := "A", marks := 1,
     options := Option.none, correctAnswer := Option.none },
   { text := "APPLE", part := "A", marks := 1,
     options := Option.none, correctAnswer := Option.none }]

/-- Claim C5, witness: on the two case-twin rows the returned list is the
store's growth, exactly one record is created, and the re-import is a
no-op. -/
theorem c5_import_idempotent_witness :
    (import_questions_from_dicts importDb0 importRowsCase Option.none Option.none Option.none 1).1.questions
      = importDb0.questions
        ++ (import_questions_from_dicts importDb0 importRowsCase Option.none Option.none Option.none 1).2
    ∧ ((import_questions_from_dicts importDb0 importRowsCase Option.none Option.none Option.none 1).2.map
        (fun q => q.text)) = ["Apple"]
    ∧ import_questions_from_dicts
        (import_questions_from_dicts importDb0 importRowsCase Option.none Option.none Option.none 1).1
        importRowsCase Option.none Option.none Option.none 5
      = ((import_questions_from_dicts importDb0 importRowsCase Option.none Option.none Option.none 1).1, []) := by
  have h := c5_import_idempotent importDb0 importRowsCase Option.none Option.none Option.none 1
  exact ⟨h.1, by decide, h.2.2.2.2 5⟩

/-- Helper: the running maximum inside `firstByDescId` never collapses
back to `none`. -/
theorem firstByDescId_aux_some (l : List QuestionPaper) :
    ∀ t, ∃ u, l.foldl
      (fun acc p =>
        match acc with
        | Option.none => some p
        | some q => if q.id < p.id then some p else some q)
      (some t) = some u := by
  induction l with
  | nil => intro t; exact ⟨t, rfl⟩
  | cons a l ih =>
      intro t
      simp only [List.foldl_cons]
      by_cases hlt : t.id < a.id
      · have := ih a
        simpa [hlt] using this
      · have := ih t
        simpa [hlt] using this

/-- Helper: `order_by("-id").first()` is `none` exactly on the empty
queryset. -/
theorem firstByDescId_eq_none_iff (l : List QuestionPaper) :
    firstByDescId l = Option.none ↔ l = [] := by
  constructor
  · intro h
    cases l with
    | nil => rfl
    | cons a t =>
        unfold firstByDescId at h
        simp only [List.foldl_cons] at h
        obtain ⟨u, hu⟩ := firstByDescId_aux_some t a
        rw [hu] at h
        exact absurd h (by simp)
  · intro h
    rw [h]
    rfl

/-- Helper: the fold of `firstByDescId` returns the seed or a member, of
maximal id. -/
theorem firstByDescId_aux_spec (l : List QuestionPaper) :
    ∀ t u, l.foldl
        (fun acc p =>
          match acc with
          | Option.none => some p
          | some q => if q.id < p.id then some p else some q)
        (some t) = some u →
      (u = t ∨ u ∈ l) ∧ t.id ≤ u.id ∧ ∀ q ∈ l, q.id ≤ u.id := by
  induction l with
  | nil =>
      intro t u h
      simp only [List.foldl_nil, Option.some_inj] at h
      subst h
      exact ⟨Or.inl rfl, le_refl _, by simp⟩
  | cons a l ih =>
      intro t u h
      simp only [List.foldl_cons] at h
      by_cases hlt : t.id < a.id
      · rw [if_pos hlt] at h
        obtain ⟨hm, hle, hall⟩ := ih a u h
        refine ⟨?_, ?_, ?_⟩
        · rcases hm with he | hm
          · exact Or.inr (he ▸ List.mem_cons_self a l)
          · exact Or.inr (List.mem_cons_of_mem a hm)
        · exact le_trans (le_of_lt hlt) hle
        · intro q hq
          rcases List.mem_cons.mp hq with he | hq
          · exact he ▸ hle
          · exact hall q hq
      · rw [if_neg hlt] at h
        obtain ⟨hm, hle, hall⟩ := ih t u h
        refine ⟨?_, hle, ?_⟩
        · rcases hm with he | hm
          · exact Or.inl he
          · exact Or.inr (List.mem_cons_of_mem a hm)
        · intro q hq
          rcases List.mem_cons.mp hq with he | hq
          · exact he ▸ le_trans (Nat.le_of_not_lt hlt) hle
          · exact hall q hq

/-- Helper: `order_by("-id").first()` returns a member whose id is
maximal — the most recently created paper of the queryset. -/
theorem firstByDescId_spec (l : List QuestionPaper) (p : QuestionPaper)
    (h : firstByDescId l = some p) :
    p ∈ l ∧ ∀ q ∈ l, q.id ≤ p.id := by
  cases l with
  | nil => exact absurd h (by simp [firstByDescId])
  | cons a t =>
      unfold firstByDescId at h
      simp only [List.foldl_cons] at h
      obtain ⟨hm, _, hall⟩ := firstByDescId_aux_spec t a p h
      refine ⟨?_, ?_⟩
      · rcases hm with he | hm
        · exact he ▸ List.mem_cons_self a t
        · exact List.mem_cons_of_mem a hm
      · intro q hq
        rcases List.mem_cons.mp hq with he | hq
        · rw [he]
          exact (firstByDescId_aux_spec t a p h).2.1
        · exact hall q hq

/-- A tier-1 match needs a candidate category. -/
theorem specTier1_noCat (db : DB) : specTier1 db Option.none = [] := by
  simp [specTier1, specCatMatch]

/-- A tier-2 match needs a candidate category. -/
theorem specTier2_noCat (db : DB) (tr : Option Nat) :
    specTier2 db Option.none tr = [] := by
  simp [specTier2, specCatMatch]

/-- A tier-2 match needs a candidate trade. -/
theorem specTier2_noTrade (db : DB) (cat : Option String) :
    specTier2 db cat Option.none = [] := by
  simp [specTier2, specTradeMatch]

/-- A tier-3 match needs a candidate trade. -/
theorem specTier3_noTrade (db : DB) : specTier3 db Option.none = [] := by
  simp [specTier3, specTradeMatch]

/-- The view's tier-1 queryset is the spec's tier 1. -/
theorem tier1_filter_eq (db : DB) (c : String) :
    db.papers.filter (fun p => decide (p.category = some c) && p.isActive
        && decide (0 < activeQCount db p.id))
      = specTier1 db (some c) := by
  apply List.filter_congr
  intro p _
  simp [specCatMatch, specEligible, Bool.and_assoc]

/-- The view's tier-2 queryset is the spec's tier 2. -/
theorem tier2_filter_eq (db : DB) (c : String) (t : Nat) :
    db.papers.filter (fun p => decide (p.category = some c) && decide (p.trade = some t)
        && p.isActive && decide (0 < activeQCount db p.id))
      = specTier2 db (some c) (some t) := by
  apply List.filter_congr
  intro p _
  simp [specCatMatch, specTradeMatch, specEligible, Bool.and_assoc]

/-- The view's tier-3 queryset is the spec's tier 3. -/
theorem tier3_filter_eq (db : DB) (t : Nat) :
    db.papers.filter (fun p => decide (p.trade = some t) && p.isActive
        && decide (0 < activeQCount db p.id))
      = specTier3 db (some t) := by
  apply List.filter_congr
  intro p _
  simp [specTradeMatch, specEligible, Bool.and_assoc]

/-- The view's tier-4 queryset is the spec's tier 4. -/
theorem tier4_filter_eq (db : DB) :
    db.papers.filter (fun p => p.isActive && decide (0 < activeQCount db p.id))
      = specTier4 db := by
  apply List.filter_congr
  intro p _
  simp [specEligible]

/-- The view's selection chain equals the spec's
first-non-empty-tier selection. -/
theorem exam_interface_select_eq_spec (db : DB) (cat : Option String) (tr : Option Nat) :
    exam_interface_select db cat tr = specSelect db cat tr := by
  cases cat with
  | none =>
      cases tr with
      | none =>
          simp only [exam_interface_select, specSelect, specChosenTier,
            specTier1_noCat, specTier2_noCat, specTier3_noTrade,
            ne_eq, not_true_eq_false, if_false]
          rw [tier4_filter_eq]
      | some t =>
          simp only [exam_interface_select, specSelect, specChosenTier,
            specTier1_noCat, specTier2_noCat,
            ne_eq, not_true_eq_false, if_false]
          rw [tier3_filter_eq, tier4_filter_eq]
          cases hfb3 : firstByDescId (specTier3 db (some t)) with
          | some u =>
              have h3 : ¬specTier3 db (some t) = [] := by
                intro hnil
                rw [hnil] at hfb3
                exact absurd hfb3 (by simp [firstByDescId])
              rw [if_pos h3]
              simp [hfb3]
          | none =>
              have h3 : specTier3 db (some t) = [] :=
                (firstByDescId_eq_none_iff _).mp hfb3
              rw [if_neg (by simp [h3])]
  | some c =>
      cases tr with
      | none =>
          simp only [exam_interface_select, specSelect, specChosenTier,
            specTier2_noTrade, specTier3_noTrade,
            ne_eq, not_true_eq_false, if_false]
          rw [tier1_filter_eq, tier4_filter_eq]
          cases hfb1 : firstByDescId (specTier1 db (some c)) with
          | some u =>
              have h1 : ¬specTier1 db (some c) = [] := by
                intro hnil
                rw [hnil] at hfb1
                exact absurd hfb1 (by simp [firstByDescId])
              rw [if_pos h1]
              simp [hfb1]
          | none =>
              have h1 : specTier1 db (some c) = [] :=
                (firstByDescId_eq_none_iff _).mp hfb1
              rw [if_neg (by simp [h1])]
      | some t =>
          simp only [exam_interface_select, specSelect, specChosenTier]
          rw [tier1_filter_eq, tier2_filter_eq, tier3_filter_eq, tier4_filter_eq]
          cases hfb1 : firstByDescId (specTier1 db (some c)) with
          | some u =>
              have h1 : ¬specTier1 db (some c) = [] := by
                intro hnil
                rw [hnil] at hfb1
                exact absurd hfb1 (by simp [firstByDescId])
              rw [if_pos (by simpa [ne_eq] using h1)]
              simp [hfb1]
          | none =>
              have h1 : specTier1 db (some c) = [] :=
                (firstByDescId_eq_none_iff _).mp hfb1
              rw [if_neg (by simp [h1])]
              simp only [hfb1]
              cases hfb2 : firstByDescId (specTier2 db (some c) (some t)) with
              | some u =>
                  have h2 : ¬specTier2 db (some c) (some t) = [] := by
                    intro hnil
                    rw [hnil] at hfb2
                    exact absurd hfb2 (by simp [firstByDescId])
                  rw [if_pos (by simpa [ne_eq] using h2)]
                  simp [hfb2]
              | none =>
                  have h2 : specTier2 db (some c) (some t) = [] :=
                    (firstByDescId_eq_none_iff _).mp hfb2
                  rw [if_neg (by simp [h2])]
                  simp only [hfb2]
                  cases hfb3 : firstByDescId (specTier3 db (some t)) with
                  | some u =>
                      have h3 : ¬specTier3 db (some t) = [] := by
                        intro hnil
                        rw [hnil] at hfb3
                        exact absurd hfb3 (by simp [firstByDescId])
                      rw [if_pos (by simpa [ne_eq] using h3)]
                      simp [hfb3]
                  | none =>
                      have h3 : specTier3 db (some t) = [] :=
                        (firstByDescId_eq_none_iff _).mp hfb3
                      rw [if_neg (by simp [h3])]

/-- Claim C6: paper selection evaluates the four tiers in the spec's
order — category; category and trade; trade; any paper — each restricted
to active papers with at least one active linked question; it returns the
most-recently-created paper (greatest id) of the first non-empty tier,
and returns `NotFound` exactly when every tier is empty. -/
theorem c6_selector_tiers (db : DB) (cat : Option String) (tr : Option Nat) :
    exam_interface_select db cat tr = specSelect db cat tr
    ∧ (exam_interface_select db cat tr = Option.none ↔
        specTier1 db cat = [] ∧ specTier2 db cat tr = [] ∧ specTier3 db tr = []
          ∧ specTier4 db = [])
    ∧ ∀ p, exam_interface_select db cat tr = some p →
        p ∈ specChosenTier db cat tr ∧ ∀ q ∈ specChosenTier db cat tr, q.id ≤ p.id := by
  have heq := exam_interface_select_eq_spec db cat tr
  refine ⟨heq, ?_, ?_⟩
  · rw [heq]
    unfold specSelect
    rw [firstByDescId_eq_none_iff]
    constructor
    · intro h
      unfold specChosenTier at h
      split_ifs at h with h1 h2 h3
      · exact absurd h h1
      · exact absurd h h2
      · exact absurd h h3
      · exact ⟨not_not.mp (by simpa using h1), not_not.mp (by simpa using h2),
          not_not.mp (by simpa using h3), h⟩
    · intro h
      unfold specChosenTier
      simp [h.1, h.2.1, h.2.2.1, h.2.2.2]
  · intro p hp
    rw [heq] at hp
    exact firstByDescId_spec _ p hp

/-- Papers for the selector witness: paper 1 matches the candidate's
category, paper 2 only their trade; both are active with one active
linked question. -/
def selDb : DB :=
  { questions := [{ id := 1, text := "Q1", part := "A", marks := 1,
                    options := Option.none, correctAnswer := Option.none,
                    trade := Option.none, category := Option.none,
                    uploadRef := Option.none, isActive := true }],
    papers := [{ id := 1, category := some "c1", trade := Option.none, isActive := true },
               { id := 2, category := Option.none, trade := some 1, isActive := true }],
    paperQuestions := [{ paperId := 1, questionId := 1, order := 1 },
                       { paperId := 2, questionId := 1, order := 2 }],
    sessions := [], examQuestions := [], answers := [],
    assignments := [], attempts := [], examAnswers := [] }

/-- The category-matching paper of `selDb`. -/
def selPaper1 : QuestionPaper :=
  { id := 1, category := some "c1", trade := Option.none, isActive := true }

/-- Claim C6, witness: for a candidate with category `c1` and trade 1
the tier-1 (category) paper is selected, and it belongs to the chosen
tier. -/
theorem c6_selector_tiers_witness :
    exam_interface_select selDb (some "c1") (some 1) = some selPaper1
    ∧ selPaper1 ∈ specChosenTier selDb (some "c1") (some 1) := by
  have h := c6_selector_tiers selDb (some "c1") (some 1)
  exact ⟨by decide, (h.2.2 selPaper1 (by decide)).1⟩

end ArmyPortal
